import Mathlib

/-!
# Verification of the roslaunch-to-dot resolver and emitter

This file is a shallow embedding, in Lean 4, of `roslaunch-to-dot.py`: a
script that parses a ROS launch file, recursively resolves included launch
files, expands `$(keyword argument)` substitution expressions, and emits a
dot graph of the resulting tree.

Modelling conventions:
* Python strings are modelled as `String` / `List Char`;
* Python exceptions are modelled with `Except PyError`; an exception raised
  by referencing an unbound local variable (a `NameError` in Python) is
  `PyError.nameError`;
* the `random.randint` stream is modelled as a `List Nat` threaded through
  the computation (`anon` consumes its head);
* the environment (`os.environ`) and the `rospack find` collaborator are
  modelled as finite association lists;
* the filesystem is modelled as an association list from filename to parsed
  XML content (a file is "missing" when the filename is not a key);
* the unbounded `while` loop of `__resolveText` and the recursion through
  `LaunchFile.__init__` are given explicit fuel; running out of fuel yields
  the distinguished error `PyError.outOfFuel`, which no Python execution
  produces, so theorems supply enough fuel;
* Python dict iteration order is modelled as key-insertion order.
-/

namespace Ros

/-- `[a-zA-Z_]`: characters the keyword part of the substitution pattern
`\$\(([a-zA-Z_]+) ([a-zA-Z0-9_]+)\)` accepts. -/
def isKwChar (c : Char) : Bool := c.isAlpha || c == '_'

/-- `[a-zA-Z0-9_]`: characters the argument part of the substitution
pattern accepts. -/
def isArgChar (c : Char) : Bool := c.isAlphanum || c == '_'

/-- The part of the pattern after a leading `$(`: a nonempty run of keyword
characters, a space, a nonempty run of argument characters, and `)`.  On
success return the full matched text (`results.group()`) and the two
captured groups (keyword and argument). -/
def matchAfterParen (rest : List Char) : Option (List Char × List Char × List Char) :=
  let kw := rest.takeWhile isKwChar
  match rest.dropWhile isKwChar with
  | [] => none
  | c :: rest2 =>
    if kw = [] then none
    else if c = ' ' then
      let argm := rest2.takeWhile isArgChar
      match rest2.dropWhile isArgChar with
      | [] => none
      | c2 :: _ =>
        if argm = [] then none
        else if c2 = ')' then
          some ('$' :: '(' :: (kw ++ ' ' :: argm ++ [')']), kw, argm)
        else none
    else none

/-- Try to match the regular expression `\$\(([a-zA-Z_]+) ([a-zA-Z0-9_]+)\)`
at the start of `cs`. -/
def matchAt (cs : List Char) : Option (List Char × List Char × List Char) :=
  match cs with
  | c1 :: c2 :: rest =>
    if c1 = '$' then if c2 = '(' then matchAfterParen rest else none
    else none
  | _ => none

/-- `pattern.search(text)`: find the leftmost match of the substitution
pattern in `text`; returns the full matched text and the two groups. -/
def searchSub : List Char → Option (List Char × List Char × List Char)
  | [] => none
  | c :: cs =>
    match matchAt (c :: cs) with
    | some r => some r
    | none => searchSub cs

/-- `startsWithL pat cs` is true when `pat` is an initial segment of `cs`. -/
def startsWithL : List Char → List Char → Bool
  | [], _ => true
  | _ :: _, [] => false
  | p :: ps, c :: cs => p == c && startsWithL ps cs

/-- The fueled worker for `pyReplace`: structural recursion on `fuel`,
which strictly dominates the length of the remaining text, so the `0`
fallback is unreachable from `pyReplace`. -/
def pyReplaceF (old new : List Char) : Nat → List Char → List Char
  | 0, s => s
  | _ + 1, [] => []
  | fuel + 1, c :: cs =>
    if old ≠ [] ∧ startsWithL old (c :: cs) = true then
      new ++ pyReplaceF old new fuel (List.drop (old.length - 1) cs)
    else
      c :: pyReplaceF old new fuel cs

/-- Python `text.replace(old, new)`: replace every (leftmost,
non-overlapping) occurrence of `old` in the text by `new`.  The `old = []`
case (where Python inserts `new` between all characters) never arises here
because the matched text always starts with `$(`; we return the text
unchanged in that case. -/
def pyReplace (old new s : List Char) : List Char :=
  pyReplaceF old new s.length s

/-- Python `pat in text` on strings: substring test. -/
def containsSub (pat : List Char) : List Char → Bool
  | [] => startsWithL pat []
  | c :: cs => startsWithL pat (c :: cs) || containsSub pat cs

/-- The outcomes of a raised Python exception relevant to this program. -/
inductive PyError where
  /-- Referencing an unbound local name raises `NameError`. -/
  | nameError (name : String)
  /-- Failed tuple unpacking raises `ValueError`. -/
  | valueError (msg : String)
  /-- An explicit `raise Exception(msg)`. -/
  | exception (msg : String)
  /-- Fuel exhaustion of the embedding (no Python counterpart). -/
  | outOfFuel
deriving DecidableEq

/-- The ambient read-only context: the process environment and the
`rospack find` collaborator (modelled as a finite table from package name
to the command's output). -/
structure RCtx where
  environ : List (String × String)
  rospack : List (String × String)
deriving DecidableEq

/-- First-match lookup in an association list (Python `dict.get` for the
dictionaries built here, which never hold duplicate keys). -/
def lookupA {α : Type} (k : String) : List (String × α) → Option α
  | [] => none
  | (k', v) :: rest => if k' == k then some v else lookupA k rest

/-- Python `s.split(sep)` for a single-character separator: splits at every
occurrence, keeping empty pieces. -/
def splitOnChar (sep : Char) : List Char → List (List Char)
  | [] => [[]]
  | c :: rest =>
    match splitOnChar sep rest with
    | [] => [[]]
    | grp :: grps =>
      if c == sep then [] :: grp :: grps else (c :: grp) :: grps

/-- `LaunchFile.__onAnonSubstitutionArg`: returns
`"%s-%s" % (name, randint(0, 999))`; the random draw is the head of the
modelled random stream. -/
def onAnonSubstitutionArg (rng : List Nat) (name : List Char) :
    List Char × List Nat :=
  (name ++ '-' :: (Nat.repr (rng.headD 0)).data, rng.tail)

/-- `LaunchFile.__onArgSubstitutionArg`: look the argument up in the current
file's argument table; unknown arguments raise. -/
def onArgSubstitutionArg (args : List (String × String)) (a : List Char) :
    Except PyError (List Char) :=
  match lookupA (String.mk a) args with
  | none => .error (.exception ("Could not resolve unknown arg: " ++ String.mk a))
  | some v => .ok v.data

/-- `LaunchFile.__onEnvSubstitutionArg`: the handler for both `env` and
`optenv`.  Both of its branches reference names that are unbound in the
Python function (`arg` in the no-default branch, `defaultValue` in the
default branch), so every call raises a `NameError` (or a `ValueError` when
the split yields more than two parts and the tuple unpacking fails). -/
def onEnvSubstitutionArg (_environ : List (String × String)) (env : List Char) :
    Except PyError (List Char) :=
  let parts := splitOnChar ' ' env
  if parts.length = 1 then
    -- `if arg not in environ:` — no local named `arg` exists here
    .error (.nameError "arg")
  else
    match parts with
    | [_e, _d] =>
      -- `return environ.get(env, defaultValue)` — `defaultValue` is unbound
      .error (.nameError "defaultValue")
    | _ => .error (.valueError "too many values to unpack")

/-- `LaunchFile.__onFindSubstitutionArg`: run `rospack find <package>`
(modelled as a table lookup; a package unknown to the collaborator produces
an `Error:`-bearing output) and propagate `Error:` outputs as exceptions. -/
def onFindSubstitutionArg (rospack : List (String × String)) (package : List Char) :
    Except PyError (List Char) :=
  let output := (lookupA (String.mk package) rospack).getD
    ("Error: package not found: " ++ String.mk package)
  if containsSub "Error:".data output.data then
    .error (.exception output)
  else
    .ok output.data

/-- Dispatch through `self.__substitutionArgFnMap`: `find`, `arg`, `env`,
`optenv` (same handler as `env`), `anon`; unknown keywords raise. -/
def applySub (rc : RCtx) (args : List (String × String)) (rng : List Nat)
    (kw argm : List Char) : Except PyError (List Char) × List Nat :=
  match String.mk kw with
  | "find" => (onFindSubstitutionArg rc.rospack argm, rng)
  | "arg" => (onArgSubstitutionArg args argm, rng)
  | "env" => (onEnvSubstitutionArg rc.environ argm, rng)
  | "optenv" => (onEnvSubstitutionArg rc.environ argm, rng)
  | "anon" =>
    let r := onAnonSubstitutionArg rng argm
    (.ok r.1, r.2)
  | other => (.error (.exception ("Include has unknown substitution argument " ++ other)), rng)

/-- `LaunchFile.__resolveText`: repeatedly search for the leftmost
substitution expression, resolve it through its handler, replace every
occurrence of the matched text, and rescan — until no match remains.  The
Python loop is unbounded; `fuel` bounds the number of substitution steps. -/
def resolveTextL (rc : RCtx) (args : List (String × String)) :
    Nat → List Nat → List Char → Except PyError (List Char) × List Nat
  | fuel, rng, text =>
    match searchSub text with
    | none => (.ok text, rng)
    | some (full, kw, argm) =>
      match fuel with
      | 0 => (.error .outOfFuel, rng)
      | fuel' + 1 =>
        match applySub rc args rng kw argm with
        | (.error e, rng') => (.error e, rng')
        | (.ok resolved, rng') =>
          resolveTextL rc args fuel' rng' (pyReplace full resolved text)

/-- `__resolveText` at the `String` level. -/
def resolveText (rc : RCtx) (args : List (String × String)) (fuel : Nat)
    (rng : List Nat) (text : String) : Except PyError String × List Nat :=
  match resolveTextL rc args fuel rng text.data with
  | (.ok cs, rng') => (.ok (String.mk cs), rng')
  | (.error e, rng') => (.error e, rng')

/-- A parsed XML element: tag, attribute dictionary, child elements
(`xml.etree.ElementTree` as used by the script). -/
inductive Xml where
  | elem (tag : String) (attribs : List (String × String)) (children : List Xml)

/-- The element's tag. -/
def Xml.tag : Xml → String
  | .elem t _ _ => t

/-- The element's attribute dictionary. -/
def Xml.attribs : Xml → List (String × String)
  | .elem _ a _ => a

/-- The element's children. -/
def Xml.children : Xml → List Xml
  | .elem _ _ c => c

/-- `LaunchFile.__getAttribute` with the default `None`: a missing
attribute raises. -/
def getAttribute (e : Xml) (attr : String) : Except PyError String :=
  match lookupA attr e.attribs with
  | some v => .ok v
  | none => .error (.exception ("Missing the " ++ attr ++ " attribute"))

/-- Python `str.lower()` (character-wise, as all compared literals are
ASCII). -/
def sLower (s : String) : String := String.mk (s.data.map Char.toLower)

/-- `value.lower() in ["true", "1"]`. -/
def truthyB (s : String) : Bool := sLower s == "true" || sLower s == "1"

/-- `value.lower() in ["false", "0"]`. -/
def falsyB (s : String) : Bool := sLower s == "false" || sLower s == "0"

/-- The `unless` half of `LaunchFile.__isEnabled`: resolve the `unless`
attribute when present; `true`/`1` disables the element, `false`/`0` keeps
it enabled, anything else raises. -/
def isEnabledUnless (rc : RCtx) (args : List (String × String)) (rfuel : Nat)
    (rng : List Nat) (e : Xml) : Except PyError Bool × List Nat :=
  match lookupA "unless" e.attribs with
  | some v =>
    match resolveText rc args rfuel rng v with
    | (.error err, rng') => (.error err, rng')
    | (.ok r, rng') =>
      if truthyB r then (.ok false, rng')
      else if falsyB r then (.ok true, rng')
      else (.error (.exception ("Invalid value in unless attribute: " ++ r)), rng')
  | none => (.ok true, rng)

/-- `LaunchFile.__isEnabled`: the `if` attribute is handled first — a falsy
`if` returns `False` immediately (without looking at `unless`), a truthy
`if` falls through to the `unless` check, anything else raises. -/
def isEnabled (rc : RCtx) (args : List (String × String)) (rfuel : Nat)
    (rng : List Nat) (e : Xml) : Except PyError Bool × List Nat :=
  match lookupA "if" e.attribs with
  | some v =>
    match resolveText rc args rfuel rng v with
    | (.error err, rng') => (.error err, rng')
    | (.ok r, rng') =>
      if falsyB r then (.ok false, rng')
      else if truthyB r then isEnabledUnless rc args rfuel rng' e
      else (.error (.exception ("Invalid value in if attribute: " ++ r)), rng')
  | none => isEnabledUnless rc args rfuel rng e

/-- `LaunchFile.__parseArg`: read the `name` attribute (raising when
absent), take `value` falling back to `default` (raising when both are
absent), resolve both, and yield the pair to store in the argument
table. -/
def parseArg (rc : RCtx) (rfuel : Nat) (args : List (String × String))
    (rng : List Nat) (e : Xml) : Except PyError (String × String) × List Nat :=
  match getAttribute e "name" with
  | .error err => (.error err, rng)
  | .ok name =>
    let dflt := lookupA "default" e.attribs
    match (lookupA "value" e.attribs).orElse (fun _ => dflt) with
    | none =>
      (.error (.exception "Argument must define either the default or the value attribute"), rng)
    | some v =>
      match resolveText rc args rfuel rng name with
      | (.error err, rng') => (.error err, rng')
      | (.ok name', rng') =>
        match resolveText rc args rfuel rng' v with
        | (.error err, rng'') => (.error err, rng'')
        | (.ok v', rng'') => (.ok (name', v'), rng'')

/-- Python dict assignment `self.__args[name] = value`: update an existing
key in place, or append a new one. -/
def setA (m : List (String × String)) (k v : String) : List (String × String) :=
  match m with
  | [] => [(k, v)]
  | (k', v') :: rest => if k' == k then (k, v) :: rest else (k', v') :: setA rest k v

/-- The `Node` namedtuple.  The `launchFile` field of the Python tuple (a
back-reference to the owning `LaunchFile` object) is modelled by the owning
file's filename, which determines every use the program makes of it. -/
structure NodeT where
  launchFilename : String
  package : String
  nodeType : String
  name : String
  isTestNode : Bool
deriving DecidableEq

/-- `LaunchFile.__parseNode` / `__parseTestNode`: gate on the enable
predicate, then read and resolve `pkg`, `type` and the name attribute
(`name` for nodes, `test-name` for test nodes); `none` means the element
was disabled. -/
def parseNodeEl (rc : RCtx) (rfuel : Nat) (args : List (String × String))
    (fname : String) (isTest : Bool) (rng : List Nat) (e : Xml) :
    Except PyError (Option NodeT) × List Nat :=
  match isEnabled rc args rfuel rng e with
  | (.error err, rng') => (.error err, rng')
  | (.ok false, rng') => (.ok none, rng')
  | (.ok true, rng') =>
    match getAttribute e "pkg" with
    | .error err => (.error err, rng')
    | .ok pkg =>
      match getAttribute e "type" with
      | .error err => (.error err, rng')
      | .ok ty =>
        match getAttribute e (if isTest then "test-name" else "name") with
        | .error err => (.error err, rng')
        | .ok nm =>
          match resolveText rc args rfuel rng' pkg with
          | (.error err, rng₁) => (.error err, rng₁)
          | (.ok pkg', rng₁) =>
            match resolveText rc args rfuel rng₁ ty with
            | (.error err, rng₂) => (.error err, rng₂)
            | (.ok ty', rng₂) =>
              match resolveText rc args rfuel rng₂ nm with
              | (.error err, rng₃) => (.error err, rng₃)
              | (.ok nm', rng₃) => (.ok (some ⟨fname, pkg', ty', nm', isTest⟩), rng₃)

/-- The `LaunchFile` entity: filename, missing flag, resolved argument
table, included launch files, cycle back-edge targets, and declared
nodes. -/
inductive LaunchFile where
  | mk (filename : String) (missing : Bool) (args : List (String × String))
      (includes : List LaunchFile) (cycles : List String) (nodes : List NodeT)

/-- `getFilename`. -/
def LaunchFile.filename : LaunchFile → String
  | .mk f _ _ _ _ _ => f

/-- `isMissing`. -/
def LaunchFile.missing : LaunchFile → Bool
  | .mk _ m _ _ _ _ => m

/-- The resolved argument table. -/
def LaunchFile.args : LaunchFile → List (String × String)
  | .mk _ _ a _ _ _ => a

/-- The launch files included by this one. -/
def LaunchFile.includes : LaunchFile → List LaunchFile
  | .mk _ _ _ i _ _ => i

/-- `getCycles`. -/
def LaunchFile.cycles : LaunchFile → List String
  | .mk _ _ _ _ c _ => c

/-- `getNodes`. -/
def LaunchFile.nodes : LaunchFile → List NodeT
  | .mk _ _ _ _ _ n => n

/-- The state mutated across the whole run: the global
`VISITED_LAUNCH_FILES` set and the random stream. -/
structure GState where
  visited : List String
  rng : List Nat
deriving DecidableEq

/-- `VISITED_LAUNCH_FILES.add(filename)`. -/
def addVisited (v : List String) (f : String) : List String :=
  if f ∈ v then v else f :: v

/-- The read-only build context: substitution context, filesystem (parsed
XML per existing file), and the fuel used for each `__resolveText` loop. -/
structure BCtx where
  rc : RCtx
  fs : List (String × Xml)
  rfuel : Nat

/-- The per-file mutable state during `__parseLaunchElements`: the fields
`__args`, `__includes`, `__cycles`, `__nodes` of the file being built. -/
structure PState where
  args : List (String × String)
  includes : List LaunchFile
  cycles : List String
  nodes : List NodeT

mutual

/-- `LaunchFile.__init__`: record the visit, flag a missing file, and parse
the file's elements unless it was already visited.  `fuel` bounds the
include recursion depth (the Python recursion terminates because the
visited set grows; theorems supply sufficient fuel). -/
def mkLaunchFile (bc : BCtx) : Nat → GState → String → Except PyError LaunchFile × GState
  | 0, st, _ => (.error .outOfFuel, st)
  | fuel + 1, st, filename =>
    let hasVisited := filename ∈ st.visited
    let st1 : GState := { st with visited := addVisited st.visited filename }
    match lookupA filename bc.fs with
    | none => (.ok (.mk filename true [] [] [] []), st1)
    | some root =>
      if hasVisited then
        (.ok (.mk filename false [] [] [] []), st1)
      else
        match parseElements bc (fuel + 1) filename ⟨[], [], [], []⟩ st1 root.children with
        | (.error err, _, st2) => (.error err, st2)
        | (.ok _, ps, st2) =>
          (.ok (.mk filename false ps.args ps.includes ps.cycles ps.nodes), st2)
termination_by fuel _ _ => (2 * fuel + 1, 0)

/-- `LaunchFile.__parseLaunchElements`: the sequential element loop.  The
`arg` branch is *not* wrapped in a `try`, so its errors abort the whole
loop; the `include`, `group`, `node` and `test` branches catch errors and
skip to the next sibling.  The returned `PState` reflects all mutations up
to the point of exit (normal or exceptional). -/
def parseElements (bc : BCtx) (fuel : Nat) (fname : String) :
    PState → GState → List Xml → Except PyError Unit × PState × GState
  | ps, st, [] => (.ok (), ps, st)
  | ps, st, e@(Xml.elem _ _ _) :: rest =>
    if e.tag = "arg" then
      match parseArg bc.rc bc.rfuel ps.args st.rng e with
      | (.error err, rng') => (.error err, ps, { st with rng := rng' })
      | (.ok (n, v), rng') =>
        parseElements bc fuel fname { ps with args := setA ps.args n v }
          { st with rng := rng' } rest
    else if e.tag = "include" then
      match parseInclude bc fuel fname ps st e with
      | (_, ps', st') => parseElements bc fuel fname ps' st' rest
    else if e.tag = "group" then
      match parseGroupEl bc fuel fname ps st e with
      | (_, ps', st') => parseElements bc fuel fname ps' st' rest
    else if e.tag = "node" then
      match parseNodeEl bc.rc bc.rfuel ps.args fname false st.rng e with
      | (.error _, rng') => parseElements bc fuel fname ps { st with rng := rng' } rest
      | (.ok none, rng') => parseElements bc fuel fname ps { st with rng := rng' } rest
      | (.ok (some nd), rng') =>
        parseElements bc fuel fname { ps with nodes := ps.nodes ++ [nd] }
          { st with rng := rng' } rest
    else if e.tag = "test" then
      match parseNodeEl bc.rc bc.rfuel ps.args fname true st.rng e with
      | (.error _, rng') => parseElements bc fuel fname ps { st with rng := rng' } rest
      | (.ok none, rng') => parseElements bc fuel fname ps { st with rng := rng' } rest
      | (.ok (some nd), rng') =>
        parseElements bc fuel fname { ps with nodes := ps.nodes ++ [nd] }
          { st with rng := rng' } rest
    else
      parseElements bc fuel fname ps st rest
termination_by _ _ elems => (2 * fuel, sizeOf elems)
decreasing_by
  all_goals first
    | decreasing_tactic
    | (simp_wf
       subst_vars
       simp only [Xml.children, Xml.elem.sizeOf_spec]
       omega)

/-- `LaunchFile.__parseInclude`: gate on the enable predicate, read and
resolve the `file` attribute, record a cycle back-edge when the resolved
path was already visited, and construct the included `LaunchFile`
(which, for an already-visited path, does not re-parse). -/
def parseInclude (bc : BCtx) (fuel : Nat) (_fname : String) (ps : PState)
    (st : GState) (e : Xml) : Except PyError Unit × PState × GState :=
  match isEnabled bc.rc ps.args bc.rfuel st.rng e with
  | (.error err, rng') => (.error err, ps, { st with rng := rng' })
  | (.ok false, rng') => (.ok (), ps, { st with rng := rng' })
  | (.ok true, rng') =>
    match getAttribute e "file" with
    | .error err => (.error err, ps, { st with rng := rng' })
    | .ok fileAttr =>
      match resolveText bc.rc ps.args bc.rfuel rng' fileAttr with
      | (.error err, rng'') => (.error err, ps, { st with rng := rng'' })
      | (.ok resolved, rng'') =>
        let st2 : GState := { st with rng := rng'' }
        let ps1 := if resolved ∈ st2.visited then
            { ps with cycles := ps.cycles ++ [resolved] } else ps
        match fuel with
        | 0 => (.error .outOfFuel, ps1, st2)
        | g + 1 =>
          match mkLaunchFile bc g st2 resolved with
          | (.error err, st3) => (.error err, ps1, st3)
          | (.ok child, st3) =>
            (.ok (), { ps1 with includes := ps1.includes ++ [child] }, st3)
termination_by (2 * fuel, 0)

/-- `LaunchFile.__parseGroup`: gate on the enable predicate, then parse the
group's children against the same per-file state. -/
def parseGroupEl (bc : BCtx) (fuel : Nat) (fname : String) (ps : PState)
    (st : GState) (e : Xml) : Except PyError Unit × PState × GState :=
  match isEnabled bc.rc ps.args bc.rfuel st.rng e with
  | (.error err, rng') => (.error err, ps, { st with rng := rng' })
  | (.ok false, rng') => (.ok (), ps, { st with rng := rng' })
  | (.ok true, rng') => parseElements bc fuel fname ps { st with rng := rng' } e.children
termination_by (2 * fuel, sizeOf e.children + 1)

end

/-- The fueled worker for `splitOnL` (the fuel dominates the length of the
remaining text, so the `0` fallback is unreachable from `splitOnL`). -/
def splitOnLF (sep : List Char) : Nat → List Char → List (List Char)
  | 0, s => [s]
  | fuel + 1, s =>
    match s with
    | [] => [[]]
    | c :: cs =>
      if sep ≠ [] ∧ startsWithL sep (c :: cs) = true then
        [] :: splitOnLF sep fuel (List.drop (sep.length - 1) cs)
      else
        match splitOnLF sep fuel cs with
        | [] => [[c]]
        | g :: gs => (c :: g) :: gs

/-- Python `s.split(sep)` for a nonempty separator: split at every
leftmost, non-overlapping occurrence, keeping empty pieces. -/
def splitOnL (sep cs : List Char) : List (List Char) :=
  splitOnLF sep cs.length cs

/-- `s.split(sep)` at the `String` level. -/
def splitOnS (s sep : String) : List String :=
  (splitOnL sep.data s.data).map String.mk

/-- Python `os.path.basename` (POSIX separator): the part after the last
`/`. -/
def basename (s : String) : String := (splitOnS s "/").getLastD ""

/-- The position of the last `.` in the list, if any. -/
def lastIndexOfDot (cs : List Char) : Option Nat :=
  ((cs.enum.filter (fun p => p.2 == '.')).getLast?).map (fun p => p.1)

/-- `os.path.splitext(base)[0]` for a string already free of separators:
cut at the last dot, except when every character before that dot is itself
a dot (Python does not split a leading-dots-only root). -/
def splitextRoot (cs : List Char) : List Char :=
  match lastIndexOfDot cs with
  | none => cs
  | some i => if (cs.take i).all (fun c => c == '.') then cs else cs.take i

/-- `getCleanName`: `splitext(basename(filename))[0].replace(".", "_")`. -/
def getCleanName (filename : String) : String :=
  String.mk ((splitextRoot (basename filename).data).map
    (fun c => if c == '.' then '_' else c))

/-- `getPackageName`: split the path on `/launch/`; the package name is the
basename of the part before the first such segment; a path without a
`/launch/` segment raises. -/
def getPackageName (f : String) : Except PyError String :=
  let dirItems := splitOnS f "/launch/"
  if dirItems.length ≥ 2 then .ok (basename (dirItems.headD ""))
  else .error (.exception ("Failed to get package name for: " ++ f))

mutual

/-- `getAllLaunchFiles`: this file followed by, recursively, everything its
includes reach (preorder). -/
def getAllLaunchFiles : LaunchFile → List LaunchFile
  | .mk f m a incs c n => .mk f m a incs c n :: getAllLaunchFilesL incs

/-- `getAllLaunchFiles` extended over a list of launch files. -/
def getAllLaunchFilesL : List LaunchFile → List LaunchFile
  | [] => []
  | x :: xs => getAllLaunchFiles x ++ getAllLaunchFilesL xs

end

mutual

/-- `getAllNodes`: this file's nodes followed by, recursively, the nodes of
everything its includes reach. -/
def getAllNodes : LaunchFile → List NodeT
  | .mk _ _ _ incs _ nds => nds ++ getAllNodesL incs

/-- `getAllNodes` extended over a list of launch files. -/
def getAllNodesL : List LaunchFile → List NodeT
  | [] => []
  | x :: xs => getAllNodes x ++ getAllNodesL xs

end

/-- Adding an element to a Python `set`, modelled as a duplicate-free list:
append the element unless already present. -/
def insertNew {α : Type} [DecidableEq α] (acc : List α) (x : α) : List α :=
  if x ∈ acc then acc else acc ++ [x]

/-- Build a Python `set` from the elements of a list. -/
def pySetOf {α : Type} [DecidableEq α] (l : List α) : List α :=
  l.foldl insertNew []

/-- `getNumNodes`: the size of the set of `(package, nodeType, name)`
triples over all reachable nodes. -/
def getNumNodes (lf : LaunchFile) : Nat :=
  (pySetOf ((getAllNodes lf).map (fun n => (n.package, n.nodeType, n.name)))).length

/-- `getNumLaunchFiles`: the size of the set of filenames over all
reachable launch files. -/
def getNumLaunchFiles (lf : LaunchFile) : Nat :=
  (pySetOf ((getAllLaunchFiles lf).map LaunchFile.filename)).length

/-- Appending a value to the list stored under a key of a
`dict`-of-lists (`map.get(k, []) + [v]`), keys kept in insertion order. -/
def addToMultimap {α : Type} (m : List (String × List α)) (k : String) (v : α) :
    List (String × List α) :=
  match m with
  | [] => [(k, [v])]
  | (k', vs) :: rest =>
    if k' == k then (k', vs ++ [v]) :: rest else (k', vs) :: addToMultimap rest k v

/-- The `packageLaunchFileMap` loop of `getPackageMap`; fails when a
filename yields no package name. -/
def buildLaunchFileMap (acc : List (String × List LaunchFile)) :
    List LaunchFile → Except PyError (List (String × List LaunchFile))
  | [] => .ok acc
  | lf :: rest =>
    match getPackageName lf.filename with
    | .error e => .error e
    | .ok pkg => buildLaunchFileMap (addToMultimap acc pkg lf) rest

/-- The `packageNodeMap` loop of `getPackageMap`. -/
def buildNodeMap (acc : List (String × List NodeT)) : List NodeT → List (String × List NodeT)
  | [] => acc
  | nd :: rest => buildNodeMap (addToMultimap acc nd.package nd) rest

/-- `getPackageMap`: package name to (launch files, nodes) in that package.
The Python `set(keys1 + keys2)` iteration order is modelled as insertion
order: launch-file-map keys first, then new node-map keys. -/
def getPackageMap (lf : LaunchFile) :
    Except PyError (List (String × (List LaunchFile × List NodeT))) :=
  match buildLaunchFileMap [] (getAllLaunchFiles lf) with
  | .error e => .error e
  | .ok lfm =>
    let nm := buildNodeMap [] (getAllNodes lf)
    let lkeys := lfm.map (fun p => p.1)
    let keys := lkeys ++ (nm.map (fun p => p.1)).filter (fun k => decide (k ∉ lkeys))
    .ok (keys.map (fun k => (k, ((lookupA k lfm).getD [], (lookupA k nm).getD []))))

/-- Colors used within the dot graph. -/
def LaunchFileColor : String := "#d3d3d3"

/-- The fill color of a missing launch file's node. -/
def MissingFileColor : String := "#cc0000"

/-- The fill color of a ROS node's visual node. -/
def NodeColor : String := "#6495ed"

/-- The fill color of a test node's visual node. -/
def TestNodeColor : String := "#009900"

/-- `__getAttributeStr`: `', '.join(attributes)`. -/
def getAttributeStr (attributes : List String) : String :=
  String.intercalate ", " attributes

/-- The dot line declaring the visual node of one launch file (identifier
`launch_<cleanname>`, label the basename, fill color by missing flag). -/
def launchFileNodeLine (lf : LaunchFile) : String :=
  let color := if lf.missing then MissingFileColor else LaunchFileColor
  let attributeStr := getAttributeStr
    ["label=\"" ++ basename lf.filename ++ "\"",
     "shape=rectangle",
     "style=filled",
     "fillcolor=\"" ++ color ++ "\""]
  "        \"launch_" ++ getCleanName lf.filename ++ "\" [" ++ attributeStr ++ "];"

/-- The dot line declaring the visual node of one process node (identifier
`node_<name>`, fill color by test flag). -/
def nodeNodeLine (nd : NodeT) : String :=
  let color := if nd.isTestNode then TestNodeColor else NodeColor
  let attributeStr := getAttributeStr
    ["shape=rectangle", "style=filled", "fillcolor=\"" ++ color ++ "\""]
  "        \"node_" ++ nd.name ++ "\" [label=\"" ++ nd.name ++ "\" " ++ attributeStr ++ "];"

/-- `__createPackageSubgraph`: the cluster for one package. -/
def createPackageSubgraph (clusterNum : Nat) (packageName : String)
    (launchFiles : List LaunchFile) (nodes : List NodeT) : List String :=
  ["",
   "    // Subgraph for package: " ++ packageName,
   "    subgraph cluster_" ++ Nat.repr clusterNum ++ " \x7b",
   "        label=\"" ++ packageName ++ "\";",
   "        penwidth=5;  // Thicker borders on clusters"]
  ++ (if launchFiles.length > 0 then
        ["", "        // Launch files contained in this package"]
          ++ launchFiles.map launchFileNodeLine
      else
        ["", "        // This package contains no launch files"])
  ++ (if nodes.length > 0 then
        ["", "        // ROS nodes contained in this package"]
          ++ nodes.map nodeNodeLine
      else
        ["", "        // This package contains no ROS nodes"])
  ++ ["    \x7d"]

/-- The opening lines of `toDot`: the digraph declaration, the generated
notice carrying the timestamp, the command line and the statistics, and the
global attributes. -/
def headerLines (cleanName stamp command : String)
    (numPackages numLaunchFiles numNodes : Nat) : List String :=
  ["digraph " ++ cleanName ++ "_launch_graph \x7b",
   "    /**",
   "      * This dot file was automatically generated on " ++ stamp,
   "      * By the command:",
   "      *    " ++ command,
   "      *",
   "      * This launch graph has the following properties:",
   "      *    - it contains " ++ Nat.repr numPackages ++ " ROS packages",
   "      *    - it contains " ++ Nat.repr numLaunchFiles ++ " ROS launch files",
   "      *    - it contains " ++ Nat.repr numNodes ++ " ROS nodes",
   "     */",
   "    graph [fontsize=35, ranksep=2, nodesep=2];",
   "    node [fontsize=35];",
   "    compound=true;"]

/-- `concatMap`, defined by recursion for easy induction. -/
def concatMapL {α β : Type} (f : α → List β) : List α → List β
  | [] => []
  | x :: xs => f x ++ concatMapL f xs

/-- The edge lines from one launch file to one of its includes: a cycle
edge is drawn red and preceded by a warning comment. -/
def includeEdgeLines (parent inc : LaunchFile) : List String :=
  let isCycle := inc.filename ∈ parent.cycles
  let color := if isCycle then "red" else "black"
  let attributeStr := getAttributeStr ["penwidth=3", "color=" ++ color]
  (if isCycle then ["    // WARNING: This edge is cycle to a previous launch file"] else [])
  ++ ["    \"launch_" ++ getCleanName parent.filename ++ "\" -> \"launch_"
      ++ getCleanName inc.filename ++ "\" [" ++ attributeStr ++ "];"]

/-- The `toDot` section connecting launch files to the launch files they
include. -/
def launchEdgesSection (pm : List (String × (List LaunchFile × List NodeT))) : List String :=
  ["", "    // Add connections between launch files"]
  ++ concatMapL (fun pt =>
       concatMapL (fun lf => concatMapL (includeEdgeLines lf) lf.includes) pt.2.1) pm

/-- The edge line from a node's launch file to the node. -/
def nodeEdgeLine (nd : NodeT) : String :=
  "    \"launch_" ++ getCleanName nd.launchFilename ++ "\" -> \"node_"
    ++ nd.name ++ "\" [penwidth=3];"

/-- The `toDot` section connecting launch files to the nodes they
declare. -/
def nodeEdgesSection (pm : List (String × (List LaunchFile × List NodeT))) : List String :=
  ["", "    // Add connections between launch files and nodes"]
  ++ concatMapL (fun pt => concatMapL (fun nd => [nodeEdgeLine nd]) pt.2.2) pm

/-- The subgraph clusters, sequentially numbered in package-map order. -/
def subgraphSection : Nat → List (String × (List LaunchFile × List NodeT)) → List String
  | _, [] => []
  | i, (pkg, (lfs, nds)) :: rest =>
    createPackageSubgraph i pkg lfs nds ++ subgraphSection (i + 1) rest

/-- `toDot`, as the list of lines before the final `'\n'.join`.  `stamp`
(`str(datetime.now())`) and `command` (`' '.join(argv)`) are ambient inputs
of the Python function, made explicit here. -/
def toDotLines (root : LaunchFile) (stamp command : String) :
    Except PyError (List String) :=
  match getPackageMap root with
  | .error e => .error e
  | .ok pm =>
    .ok (headerLines (getCleanName root.filename) stamp command
          pm.length (getNumLaunchFiles root) (getNumNodes root)
        ++ subgraphSection 0 pm
        ++ launchEdgesSection pm
        ++ nodeEdgesSection pm
        ++ ["\x7d"])

/-- `toDot`: the emitted dot text. -/
def toDot (root : LaunchFile) (stamp command : String) : Except PyError String :=
  match toDotLines root stamp command with
  | .error e => .error e
  | .ok ls => .ok (String.intercalate "\n" ls)

/-- The payload of a successful emission (`""` on error); used to compare
concrete emissions. -/
def exOk : Except PyError String → String
  | .ok s => s
  | .error _ => ""

/-- Recognizes the cluster label lines of the emitted dot text. -/
def isLabelLine (s : String) : Bool := startsWithL "        label=".data s.data

/-- The cluster label line of one package. -/
def labelLineOf (pkg : String) : String := "        label=\"" ++ pkg ++ "\";"

/-- An optional enable-predicate attribute value that is either absent or
resolves to a truthy literal. -/
def truthyOrUnset : Option String → Prop
  | none => True
  | some v => truthyB v = true

/-- An optional enable-predicate attribute value that is either absent or
resolves to a falsy literal. -/
def falsyOrUnset : Option String → Prop
  | none => True
  | some v => falsyB v = true

/-- An attribute value outside both boolean literal sets. -/
def invalidBool (v : String) : Prop := truthyB v = false ∧ falsyB v = false

/-- The value of `__isEnabled`'s `unless` half as a function of the
attribute lookup alone (the form it takes when the attribute value
contains no substitution expression). -/
def enabledSpecUnless (rng : List Nat) : Option String → Except PyError Bool × List Nat
  | some u =>
    if truthyB u then (.ok false, rng)
    else if falsyB u then (.ok true, rng)
    else (.error (.exception ("Invalid value in unless attribute: " ++ u)), rng)
  | none => (.ok true, rng)

/-- The value of `__isEnabled` as a function of the two attribute lookups
alone (the form it takes when the attribute values contain no substitution
expressions). -/
def enabledSpec (rng : List Nat) : Option String → Option String → Except PyError Bool × List Nat
  | some v, o2 =>
    if falsyB v then (.ok false, rng)
    else if truthyB v then enabledSpecUnless rng o2
    else (.error (.exception ("Invalid value in if attribute: " ++ v)), rng)
  | none, o2 => enabledSpecUnless rng o2

/-- A one-file resolved tree used to evaluate the emitter at a concrete
input. -/
def sampleRoot : LaunchFile := .mk "/a/p1/launch/r.launch" false [] [] [] []

/-- A launch file from package `pa`, included by `sampleRootPb`. -/
def sampleChildPa : LaunchFile := .mk "/a/pa/launch/c.launch" false [] [] [] []

/-- A resolved tree whose root lives in package `pb` and includes a file
from package `pa`: the packages are encountered in the non-alphabetical
order `pb`, `pa`. -/
def sampleRootPb : LaunchFile :=
  .mk "/a/pb/launch/r.launch" false [] [sampleChildPa] [] []

/-- The emitted line list for `sampleRoot` (empty on error). -/
def sampleRootLines : List String :=
  (toDotLines sampleRoot "S" "C").toOption.getD []

section Lemmas

/-- `__resolveText` on text without any substitution expression returns the
text unchanged and leaves the random stream untouched. -/
theorem resolveText_of_searchNone (rc : RCtx) (args : List (String × String))
    (fuel : Nat) (rng : List Nat) (s : String) (h : searchSub s.data = none) :
    resolveText rc args fuel rng s = (.ok s, rng) := by
  obtain ⟨cs⟩ := s
  have h' : searchSub cs = none := h
  rw [resolveText, resolveTextL, h']

/-- `insertNew` preserves freedom from duplicates. -/
theorem insertNew_nodup {α : Type} [DecidableEq α] {acc : List α} (x : α)
    (h : acc.Nodup) : (insertNew acc x).Nodup := by
  unfold insertNew
  split
  · exact h
  · next hx => simpa [List.nodup_append] using ⟨h, hx⟩

/-- `insertNew` adds exactly the new element to the underlying set. -/
theorem insertNew_toFinset {α : Type} [DecidableEq α] (acc : List α) (x : α) :
    (insertNew acc x).toFinset = insert x acc.toFinset := by
  unfold insertNew
  split
  · next hx =>
    have : x ∈ acc.toFinset := List.mem_toFinset.mpr hx
    rw [Finset.insert_eq_self.mpr this]
  · ext y
    simp [List.toFinset_append, or_comm]

/-- Folding `insertNew` accumulates the union of the underlying sets. -/
theorem foldl_insertNew_toFinset {α : Type} [DecidableEq α] (l : List α) :
    ∀ acc : List α, (l.foldl insertNew acc).toFinset = acc.toFinset ∪ l.toFinset := by
  induction l with
  | nil => intro acc; simp
  | cons a l ih =>
    intro acc
    rw [List.foldl_cons, ih, insertNew_toFinset]
    ext y
    simp [or_comm, or_assoc, or_left_comm]

/-- Folding `insertNew` keeps the accumulator duplicate-free. -/
theorem foldl_insertNew_nodup {α : Type} [DecidableEq α] (l : List α) :
    ∀ acc : List α, acc.Nodup → (l.foldl insertNew acc).Nodup := by
  induction l with
  | nil => intro acc h; exact h
  | cons a l ih => intro acc h; exact ih _ (insertNew_nodup a h)

/-- No value is both truthy and falsy. -/
theorem not_truthy_and_falsy (v : String) : ¬(truthyB v = true ∧ falsyB v = true) := by
  simp only [truthyB, falsyB, Bool.or_eq_true, beq_iff_eq]
  rintro ⟨h1 | h1, h2 | h2⟩ <;> rw [h1] at h2 <;> simp_all

/-- The second component of `enabledSpec` is always the incoming random
stream. -/
theorem enabledSpec_snd (rng : List Nat) (o1 o2 : Option String) :
    (enabledSpec rng o1 o2).2 = rng := by
  rcases o1 with _ | v <;> rcases o2 with _ | u <;>
    simp only [enabledSpec, enabledSpecUnless] <;>
    repeat' split
  all_goals rfl

/-- `enabledSpec` evaluates to enabled exactly when `if` is
truthy-or-unset and `unless` is falsy-or-unset. -/
theorem enabledSpec_ok_true_iff (rng : List Nat) (o1 o2 : Option String) :
    (enabledSpec rng o1 o2).1 = .ok true ↔ truthyOrUnset o1 ∧ falsyOrUnset o2 := by
  rcases o1 with _ | v <;> rcases o2 with _ | u <;>
    simp only [enabledSpec, enabledSpecUnless, truthyOrUnset, falsyOrUnset]
  · simp
  · have hnu := not_truthy_and_falsy u
    rcases htu : truthyB u with _ | _ <;> rcases hfu : falsyB u with _ | _ <;>
      simp_all
  · have hnv := not_truthy_and_falsy v
    rcases htv : truthyB v with _ | _ <;> rcases hfv : falsyB v with _ | _ <;>
      simp_all
  · have hnv := not_truthy_and_falsy v
    have hnu := not_truthy_and_falsy u
    rcases htv : truthyB v with _ | _ <;> rcases hfv : falsyB v with _ | _ <;>
      rcases htu : truthyB u with _ | _ <;> rcases hfu : falsyB u with _ | _ <;>
      simp_all

/-- `enabledSpec` evaluates to disabled exactly when `if` is falsy, or
`if` is truthy-or-unset and `unless` is truthy. -/
theorem enabledSpec_ok_false_iff (rng : List Nat) (o1 o2 : Option String) :
    (enabledSpec rng o1 o2).1 = .ok false ↔
      (∃ v, o1 = some v ∧ falsyB v = true)
      ∨ (truthyOrUnset o1 ∧ ∃ u, o2 = some u ∧ truthyB u = true) := by
  rcases o1 with _ | v <;> rcases o2 with _ | u <;>
    simp only [enabledSpec, enabledSpecUnless, truthyOrUnset]
  · simp
  · have hnu := not_truthy_and_falsy u
    rcases htu : truthyB u with _ | _ <;> rcases hfu : falsyB u with _ | _ <;>
      simp_all
  · have hnv := not_truthy_and_falsy v
    rcases htv : truthyB v with _ | _ <;> rcases hfv : falsyB v with _ | _ <;>
      simp_all
  · have hnv := not_truthy_and_falsy v
    have hnu := not_truthy_and_falsy u
    rcases htv : truthyB v with _ | _ <;> rcases hfv : falsyB v with _ | _ <;>
      rcases htu : truthyB u with _ | _ <;> rcases hfu : falsyB u with _ | _ <;>
      simp_all

/-- `enabledSpec` raises exactly when `if` is present and invalid, or `if`
is truthy-or-unset and `unless` is present and invalid. -/
theorem enabledSpec_error_iff (rng : List Nat) (o1 o2 : Option String) :
    (∃ err, (enabledSpec rng o1 o2).1 = .error err) ↔
      (∃ v, o1 = some v ∧ invalidBool v)
      ∨ (truthyOrUnset o1 ∧ ∃ u, o2 = some u ∧ invalidBool u) := by
  rcases o1 with _ | v <;> rcases o2 with _ | u <;>
    simp only [enabledSpec, enabledSpecUnless, truthyOrUnset, invalidBool]
  · simp
  · have hnu := not_truthy_and_falsy u
    rcases htu : truthyB u with _ | _ <;> rcases hfu : falsyB u with _ | _ <;>
      simp_all
  · have hnv := not_truthy_and_falsy v
    rcases htv : truthyB v with _ | _ <;> rcases hfv : falsyB v with _ | _ <;>
      simp_all
  · have hnv := not_truthy_and_falsy v
    have hnu := not_truthy_and_falsy u
    rcases htv : truthyB v with _ | _ <;> rcases hfv : falsyB v with _ | _ <;>
      rcases htu : truthyB u with _ | _ <;> rcases hfu : falsyB u with _ | _ <;>
      simp_all

/-- The size of the Python set built from a list is the number of distinct
elements of the list. -/
theorem pySetOf_length {α : Type} [DecidableEq α] (l : List α) :
    (pySetOf l).length = l.toFinset.card := by
  have h1 : (pySetOf l).toFinset = l.toFinset := by
    rw [pySetOf, foldl_insertNew_toFinset]
    simp
  have h2 : (pySetOf l).Nodup := foldl_insertNew_nodup l [] (List.nodup_nil)
  rw [← h1, List.toFinset_card_of_nodup h2]

end Lemmas

section Claims

/-- **C8** (confirmed): for every text containing no substitution
expression of the shape `$(keyword argument)` (the search of the pattern
finds no match), the substitution resolver returns the text unchanged. -/
theorem c8_resolveText_identity (rc : RCtx) (args : List (String × String))
    (fuel : Nat) (rng : List Nat) (text : String)
    (h : searchSub text.data = none) :
    resolveText rc args fuel rng text = (.ok text, rng) :=
  resolveText_of_searchNone rc args fuel rng text h

/-- Witness for C8 at the concrete text `"hello world"`. -/
theorem c8_resolveText_identity_witness :
    searchSub "hello world".data = none ∧
    resolveText ⟨[], []⟩ [] 3 [] "hello world" = (.ok "hello world", []) :=
  ⟨by decide, c8_resolveText_identity ⟨[], []⟩ [] 3 [] "hello world" (by decide)⟩

/-- **C2** (code bug): `$(env NAME)` never looks the variable up: the
handler's no-default branch tests `arg not in environ` where `arg` is an
unbound name, so Python raises `NameError: arg` whether or not `NAME` is
set — instead of returning the value of a set variable (the claim and the
handler's own docstring) or raising the missing-variable error for an
unset one. -/
theorem c2_env_always_raises_nameError :
    resolveText ⟨[("PATH", "/usr/bin")], []⟩ [] 3 [] "$(env PATH)"
      = (.error (.nameError "arg"), [])
    ∧ resolveText ⟨[], []⟩ [] 3 [] "$(env PATH)"
      = (.error (.nameError "arg"), [])
    ∧ onEnvSubstitutionArg [("PATH", "/usr/bin")] "PATH".data
      = .error (.nameError "arg") :=
  ⟨rfl, rfl, rfl⟩

/-- **C3** (code bug): `$(optenv NAME D)` is never replaced by the default
`D`: the substitution pattern's argument group admits no space, so the
two-token expression is not matched at all and the text is returned
unchanged; and even if the handler were reached with `"NAME D"`, its
default branch returns `environ.get(env, defaultValue)` where
`defaultValue` is an unbound name, raising `NameError`. -/
theorem c3_optenv_default_never_substituted :
    resolveText ⟨[], []⟩ [] 3 [] "$(optenv FOO bar)"
      = (.ok "$(optenv FOO bar)", [])
    ∧ searchSub "$(optenv FOO bar)".data = none
    ∧ onEnvSubstitutionArg [] "FOO bar".data
      = .error (.nameError "defaultValue") :=
  ⟨rfl, by decide, rfl⟩

/-- **C7** (confirmed): the node-count statistic equals the number of
distinct `(package, type, name)` triples over all process nodes reachable
from the root, so a triple declared from two different inclusion paths is
counted once. -/
theorem c7_getNumNodes_distinct_triples (lf : LaunchFile) :
    getNumNodes lf
      = ((getAllNodes lf).map (fun n => (n.package, n.nodeType, n.name))).toFinset.card :=
  pySetOf_length _

/-- **C6** (counterexample): an element whose `unless` attribute resolves
to `"maybe"` — a value outside both boolean literal sets — does *not*
raise when its `if` attribute is falsy: the `if` check returns first, so
the element is silently disabled and the invalid `unless` value is never
validated, contradicting the claim that any resolved value outside the
sets raises an InvalidBooleanError. -/
theorem c6_counterexample_if_false_shortcircuits_invalid_unless :
    isEnabled ⟨[], []⟩ [] 3 []
        (Xml.elem "node" [("if", "false"), ("unless", "maybe")] [])
      = (.ok false, [])
    ∧ truthyB "maybe" = false ∧ falsyB "maybe" = false :=
  ⟨rfl, rfl, rfl⟩

/-- **C6** (amended): attribute values are resolved and compared
case-insensitively against `{"true","1"}` / `{"false","0"}`, but the
validation is sequential: the element evaluates to enabled iff `if` is
truthy-or-unset and `unless` is falsy-or-unset; it evaluates to disabled
iff `if` is falsy, or `if` is truthy-or-unset and `unless` is truthy; an
InvalidBooleanError arises iff `if` is present and invalid, or `if` is
truthy-or-unset and `unless` is present and invalid (so a falsy `if`
short-circuits an invalid `unless`); and a disabled `node` element
contributes no entity and no state change. -/
theorem c6_enable_predicate_characterization (bc : BCtx) (ps : PState)
    (st : GState) (e : Xml)
    (hif : ∀ v, lookupA "if" e.attribs = some v → searchSub v.data = none)
    (hun : ∀ v, lookupA "unless" e.attribs = some v → searchSub v.data = none) :
    ((isEnabled bc.rc ps.args bc.rfuel st.rng e).1 = .ok true ↔
       truthyOrUnset (lookupA "if" e.attribs)
       ∧ falsyOrUnset (lookupA "unless" e.attribs))
    ∧ ((isEnabled bc.rc ps.args bc.rfuel st.rng e).1 = .ok false ↔
       (∃ v, lookupA "if" e.attribs = some v ∧ falsyB v = true)
       ∨ (truthyOrUnset (lookupA "if" e.attribs)
          ∧ ∃ v, lookupA "unless" e.attribs = some v ∧ truthyB v = true))
    ∧ ((∃ err, (isEnabled bc.rc ps.args bc.rfuel st.rng e).1 = .error err) ↔
       (∃ v, lookupA "if" e.attribs = some v ∧ invalidBool v)
       ∨ (truthyOrUnset (lookupA "if" e.attribs)
          ∧ ∃ v, lookupA "unless" e.attribs = some v ∧ invalidBool v))
    ∧ (isEnabled bc.rc ps.args bc.rfuel st.rng e).2 = st.rng
    ∧ (∀ fuel fname rest, e.tag = "node" →
        (isEnabled bc.rc ps.args bc.rfuel st.rng e).1 = .ok false →
        parseElements bc fuel fname ps st (e :: rest)
          = parseElements bc fuel fname ps st rest) := by
  have hmain :
      isEnabled bc.rc ps.args bc.rfuel st.rng e =
        enabledSpec st.rng (lookupA "if" e.attribs) (lookupA "unless" e.attribs) := by
    have hu : isEnabledUnless bc.rc ps.args bc.rfuel st.rng e =
        enabledSpecUnless st.rng (lookupA "unless" e.attribs) := by
      rw [isEnabledUnless]
      rcases hlun : lookupA "unless" e.attribs with _ | u
      · rfl
      · dsimp only [enabledSpecUnless]
        rw [resolveText_of_searchNone _ _ _ _ _ (hun u hlun)]
    rw [isEnabled]
    rcases hlif : lookupA "if" e.attribs with _ | v
    · exact hu
    · dsimp only [enabledSpec]
      rw [resolveText_of_searchNone _ _ _ _ _ (hif v hlif)]
      rcases hfv : falsyB v with _ | _
      · rcases htv : truthyB v with _ | _
        · simp [hfv, htv]
        · simpa [hfv, htv] using hu
      · simp [hfv]
  have hskip : ∀ fuel fname rest, e.tag = "node" →
      (isEnabled bc.rc ps.args bc.rfuel st.rng e).1 = .ok false →
      parseElements bc fuel fname ps st (e :: rest)
        = parseElements bc fuel fname ps st rest := by
    intro fuel fname rest htag hdis
    obtain ⟨t, a, ch⟩ := e
    have ht : t = "node" := htag
    subst ht
    have h3 : (isEnabled bc.rc ps.args bc.rfuel st.rng (Xml.elem "node" a ch)).2
        = st.rng := by
      rw [hmain]
      exact enabledSpec_snd st.rng _ _
    have hEn : isEnabled bc.rc ps.args bc.rfuel st.rng (Xml.elem "node" a ch)
        = (.ok false, st.rng) := Prod.ext hdis h3
    rw [parseElements]
    simp only [Xml.tag, parseNodeEl, hEn]
    rfl
  refine ⟨?_, ?_, ?_, ?_, hskip⟩ <;> rw [hmain]
  · exact enabledSpec_ok_true_iff st.rng _ _
  · exact enabledSpec_ok_false_iff st.rng _ _
  · exact enabledSpec_error_iff st.rng _ _
  · exact enabledSpec_snd st.rng _ _

/-- Witness for C6 at a concrete element with `if="true"` and
`unless="0"`. -/
theorem c6_enable_predicate_characterization_witness :
    (isEnabled ⟨[], []⟩ [] 0 []
        (Xml.elem "node" [("if", "true"), ("unless", "0")] [])).1 = .ok true :=
  (c6_enable_predicate_characterization ⟨⟨[], []⟩, [], 0⟩ ⟨[], [], [], []⟩ ⟨[], []⟩
      (Xml.elem "node" [("if", "true"), ("unless", "0")] [])
      (by intro v hv; injection hv with h; subst h; decide)
      (by intro v hv; injection hv with h; subst h; decide)).1.mpr
    ⟨(by decide : truthyB "true" = true), (by decide : falsyB "0" = true)⟩

/-- **C9** (confirmed): in the element loop, an error from an `arg` element
propagates out and makes construction of the containing file fail, while an
error from an `include`, `group`, `node` or `test` element only skips that
element and the loop continues with the remaining siblings (with the state
reached at the failure point). -/
theorem c9_arg_errors_fatal_element_errors_skipped :
    (∀ (bc : BCtx) (fuel : Nat) (fname : String) (ps : PState) (st : GState)
       (e : Xml) (rest : List Xml) (err : PyError) (rng' : List Nat),
      e.tag = "arg" →
      parseArg bc.rc bc.rfuel ps.args st.rng e = (.error err, rng') →
      parseElements bc fuel fname ps st (e :: rest)
        = (.error err, ps, { st with rng := rng' }))
    ∧ (∀ (bc : BCtx) (fuel : Nat) (fname : String) (ps : PState) (st : GState)
         (e : Xml) (rest : List Xml) (err : PyError) (rng' : List Nat),
        e.tag = "node" →
        parseNodeEl bc.rc bc.rfuel ps.args fname false st.rng e = (.error err, rng') →
        parseElements bc fuel fname ps st (e :: rest)
          = parseElements bc fuel fname ps { st with rng := rng' } rest)
    ∧ (∀ (bc : BCtx) (fuel : Nat) (fname : String) (ps : PState) (st : GState)
         (e : Xml) (rest : List Xml) (err : PyError) (rng' : List Nat),
        e.tag = "test" →
        parseNodeEl bc.rc bc.rfuel ps.args fname true st.rng e = (.error err, rng') →
        parseElements bc fuel fname ps st (e :: rest)
          = parseElements bc fuel fname ps { st with rng := rng' } rest)
    ∧ (∀ (bc : BCtx) (fuel : Nat) (fname : String) (ps : PState) (st : GState)
         (e : Xml) (rest : List Xml) (r : Except PyError Unit) (ps' : PState) (st' : GState),
        e.tag = "include" →
        parseInclude bc fuel fname ps st e = (r, ps', st') →
        parseElements bc fuel fname ps st (e :: rest)
          = parseElements bc fuel fname ps' st' rest)
    ∧ (∀ (bc : BCtx) (fuel : Nat) (fname : String) (ps : PState) (st : GState)
         (e : Xml) (rest : List Xml) (r : Except PyError Unit) (ps' : PState) (st' : GState),
        e.tag = "group" →
        parseGroupEl bc fuel fname ps st e = (r, ps', st') →
        parseElements bc fuel fname ps st (e :: rest)
          = parseElements bc fuel fname ps' st' rest)
    ∧ (∀ (bc : BCtx) (fuel : Nat) (st : GState) (fname : String) (root : Xml)
         (err : PyError) (ps' : PState) (st2 : GState),
        fname ∉ st.visited →
        lookupA fname bc.fs = some root →
        parseElements bc (fuel + 1) fname ⟨[], [], [], []⟩
            { st with visited := addVisited st.visited fname } root.children
          = (.error err, ps', st2) →
        mkLaunchFile bc (fuel + 1) st fname = (.error err, st2)) := by
  refine ⟨?_, ?_, ?_, ?_, ?_, ?_⟩
  · intro bc fuel fname ps st e rest err rng' htag hpa
    obtain ⟨t, a, ch⟩ := e
    have ht : t = "arg" := htag
    subst ht
    rw [parseElements, hpa]
    rfl
  · intro bc fuel fname ps st e rest err rng' htag hpn
    obtain ⟨t, a, ch⟩ := e
    have ht : t = "node" := htag
    subst ht
    rw [parseElements, hpn]
    rfl
  · intro bc fuel fname ps st e rest err rng' htag hpn
    obtain ⟨t, a, ch⟩ := e
    have ht : t = "test" := htag
    subst ht
    rw [parseElements, hpn]
    rfl
  · intro bc fuel fname ps st e rest r ps' st' htag hpi
    obtain ⟨t, a, ch⟩ := e
    have ht : t = "include" := htag
    subst ht
    rw [parseElements, hpi]
    rfl
  · intro bc fuel fname ps st e rest r ps' st' htag hpg
    obtain ⟨t, a, ch⟩ := e
    have ht : t = "group" := htag
    subst ht
    rw [parseElements, hpg]
    rfl
  · intro bc fuel st fname root err ps' st2 hvis hlook hpe
    rw [mkLaunchFile, hlook]
    dsimp only
    rw [if_neg hvis, hpe]

/-- Witness for C9: an `arg` element with no attributes aborts the loop
with the missing-name error and makes the containing file's construction
fail, while `node`, `include` and `group` elements failing the same way are
skipped. -/
theorem c9_arg_errors_fatal_element_errors_skipped_witness :
    parseElements ⟨⟨[], []⟩, [], 0⟩ 0 "f" ⟨[], [], [], []⟩ ⟨[], []⟩
        [Xml.elem "arg" [] []]
      = (.error (.exception "Missing the name attribute"), ⟨[], [], [], []⟩, ⟨[], []⟩)
    ∧ parseElements ⟨⟨[], []⟩, [], 0⟩ 0 "f" ⟨[], [], [], []⟩ ⟨[], []⟩
        [Xml.elem "node" [] []]
      = parseElements ⟨⟨[], []⟩, [], 0⟩ 0 "f" ⟨[], [], [], []⟩ ⟨[], []⟩ []
    ∧ mkLaunchFile ⟨⟨[], []⟩, [("f", Xml.elem "launch" [] [Xml.elem "arg" [] []])], 0⟩
        1 ⟨[], []⟩ "f"
      = (.error (.exception "Missing the name attribute"), ⟨["f"], []⟩) := by
  refine ⟨?_, ?_, ?_⟩
  · exact c9_arg_errors_fatal_element_errors_skipped.1
      ⟨⟨[], []⟩, [], 0⟩ 0 "f" ⟨[], [], [], []⟩ ⟨[], []⟩
      (Xml.elem "arg" [] []) [] (.exception "Missing the name attribute") []
      rfl rfl
  · exact c9_arg_errors_fatal_element_errors_skipped.2.1
      ⟨⟨[], []⟩, [], 0⟩ 0 "f" ⟨[], [], [], []⟩ ⟨[], []⟩
      (Xml.elem "node" [] []) [] (.exception "Missing the pkg attribute") []
      rfl rfl
  · refine c9_arg_errors_fatal_element_errors_skipped.2.2.2.2.2
      ⟨⟨[], []⟩, [("f", Xml.elem "launch" [] [Xml.elem "arg" [] []])], 0⟩ 0 ⟨[], []⟩ "f"
      (Xml.elem "launch" [] [Xml.elem "arg" [] []])
      (.exception "Missing the name attribute") ⟨[], [], [], []⟩ ⟨["f"], []⟩
      (by decide) rfl ?_
    exact c9_arg_errors_fatal_element_errors_skipped.1
      ⟨⟨[], []⟩, [("f", Xml.elem "launch" [] [Xml.elem "arg" [] []])], 0⟩ 1 "f"
      ⟨[], [], [], []⟩ ⟨["f"], []⟩
      (Xml.elem "arg" [] []) [] (.exception "Missing the name attribute") []
      rfl rfl

/-- **C1** (confirmed): a launch file whose single include element resolves
to the file's own path terminates (the same result for every fuel at least
2), records the cycle back-edge `[filename]` on the file itself, and the
resolved tree contains exactly one ConfigFile entity by path identity:
`getNumLaunchFiles` is 1, and every launch file object in the tree carries
the same filename (the occurrence for the already-visited path is an
unparsed stub with the same identity, not a new entity). -/
theorem c1_self_include_cycle (rc : RCtx) (rfuel : Nat) (rng : List Nat)
    (filename : String) (g : Nat) (h1 : searchSub filename.data = none) :
    mkLaunchFile
        ⟨rc, [(filename, Xml.elem "launch" []
          [Xml.elem "include" [("file", filename)] []])], rfuel⟩
        (g + 2) ⟨[], rng⟩ filename
      = (.ok (.mk filename false []
          [.mk filename false [] [] [] []] [filename] []), ⟨[filename], rng⟩)
    ∧ getNumLaunchFiles
        (.mk filename false [] [.mk filename false [] [] [] []] [filename] []) = 1
    ∧ LaunchFile.cycles
        (.mk filename false [] [.mk filename false [] [] [] []] [filename] [])
      = [filename]
    ∧ ∀ x ∈ getAllLaunchFiles
        (.mk filename false [] [.mk filename false [] [] [] []] [filename] []),
        x.filename = filename := by
  have hres : ∀ rng0 : List Nat,
      resolveText rc [] rfuel rng0 filename = (.ok filename, rng0) :=
    fun rng0 => resolveText_of_searchNone rc [] rfuel rng0 filename h1
  refine ⟨?_, ?_, rfl, ?_⟩
  · rw [mkLaunchFile]
    simp only [lookupA, beq_self_eq_true, if_true, addVisited, List.not_mem_nil,
      if_false, Xml.children]
    rw [parseElements]
    simp [parseInclude, mkLaunchFile, isEnabled, isEnabledUnless, getAttribute,
      Xml.tag, Xml.attribs, Xml.children, lookupA, hres, addVisited, parseElements]
  · simp [getNumLaunchFiles, getAllLaunchFiles, getAllLaunchFilesL, pySetOf,
      insertNew, LaunchFile.filename]
  · intro x hx
    simp [getAllLaunchFiles, getAllLaunchFilesL] at hx
    rcases hx with rfl | rfl <;> rfl

/-- Witness for C1 at the concrete filename `/r/p/launch/a.launch`. -/
theorem c1_self_include_cycle_witness :
    searchSub "/r/p/launch/a.launch".data = none
    ∧ mkLaunchFile
        ⟨⟨[], []⟩, [("/r/p/launch/a.launch", Xml.elem "launch" []
          [Xml.elem "include" [("file", "/r/p/launch/a.launch")] []])], 0⟩
        2 ⟨[], []⟩ "/r/p/launch/a.launch"
      = (.ok (.mk "/r/p/launch/a.launch" false []
          [.mk "/r/p/launch/a.launch" false [] [] [] []]
          ["/r/p/launch/a.launch"] []), ⟨["/r/p/launch/a.launch"], []⟩) :=
  ⟨by decide,
   (c1_self_include_cycle ⟨[], []⟩ 0 [] "/r/p/launch/a.launch" 0 (by decide)).1⟩

end Claims

section EmitterLemmas

/-- Mapping lines that are never label lines contributes nothing to the
label filter. -/
theorem filter_label_map_nil {α : Type} (f : α → String)
    (h : ∀ x, isLabelLine (f x) = false) (l : List α) :
    (l.map f).filter isLabelLine = [] := by
  induction l with
  | nil => rfl
  | cons x xs ih => simp [List.filter_cons, h x, ih]

/-- Concatenating blocks without label lines contributes nothing to the
label filter. -/
theorem filter_label_concatMapL_nil {α : Type} (f : α → List String)
    (h : ∀ x, (f x).filter isLabelLine = []) (l : List α) :
    (concatMapL f l).filter isLabelLine = [] := by
  induction l with
  | nil => rfl
  | cons x xs ih => simp [concatMapL, List.filter_append, h x, ih]

/-- Include-edge lines are never label lines. -/
theorem filter_label_includeEdgeLines (p i : LaunchFile) :
    (includeEdgeLines p i).filter isLabelLine = [] := by
  simp only [includeEdgeLines]
  by_cases hc : i.filename ∈ p.cycles
  · simp only [hc, if_true]
    rfl
  · simp only [hc, if_false]
    rfl

/-- The header block contains no label line. -/
theorem filter_label_header (cn s c : String) (n1 n2 n3 : Nat) :
    (headerLines cn s c n1 n2 n3).filter isLabelLine = [] := rfl

/-- One package cluster contributes exactly its own label line. -/
theorem filter_label_subgraph (i : Nat) (pkg : String)
    (lfs : List LaunchFile) (nds : List NodeT) :
    (createPackageSubgraph i pkg lfs nds).filter isLabelLine = [labelLineOf pkg] := by
  have hB : (if lfs.length > 0 then
        ["", "        // Launch files contained in this package"]
          ++ lfs.map launchFileNodeLine
      else ["", "        // This package contains no launch files"]).filter isLabelLine
      = [] := by
    split
    · rw [List.filter_append, filter_label_map_nil launchFileNodeLine (fun _ => rfl) lfs]
      rfl
    · rfl
  have hC : (if nds.length > 0 then
        ["", "        // ROS nodes contained in this package"]
          ++ nds.map nodeNodeLine
      else ["", "        // This package contains no ROS nodes"]).filter isLabelLine
      = [] := by
    split
    · rw [List.filter_append, filter_label_map_nil nodeNodeLine (fun _ => rfl) nds]
      rfl
    · rfl
  unfold createPackageSubgraph
  rw [List.filter_append, List.filter_append, List.filter_append, hB, hC]
  rfl

/-- The cluster section's label lines are exactly the package names in
package-map order. -/
theorem filter_label_subgraphSection (pm : List (String × (List LaunchFile × List NodeT))) :
    ∀ i, (subgraphSection i pm).filter isLabelLine
      = pm.map (fun p => labelLineOf p.1) := by
  induction pm with
  | nil => intro i; rfl
  | cons hd tl ih =>
    intro i
    obtain ⟨pkg, lfs, nds⟩ := hd
    rw [subgraphSection, List.filter_append, filter_label_subgraph, ih]
    simp

/-- The launch-file edge section contains no label line. -/
theorem filter_label_launchEdges (pm : List (String × (List LaunchFile × List NodeT))) :
    (launchEdgesSection pm).filter isLabelLine = [] := by
  rw [launchEdgesSection, List.filter_append]
  rw [filter_label_concatMapL_nil _
    (fun pt => filter_label_concatMapL_nil _
      (fun lf => filter_label_concatMapL_nil _
        (fun inc => filter_label_includeEdgeLines lf inc) lf.includes) pt.2.1) pm]
  rfl

/-- The node edge section contains no label line. -/
theorem filter_label_nodeEdges (pm : List (String × (List LaunchFile × List NodeT))) :
    (nodeEdgesSection pm).filter isLabelLine = [] := by
  rw [nodeEdgesSection, List.filter_append]
  rw [filter_label_concatMapL_nil
    (fun pt => concatMapL (fun nd => [nodeEdgeLine nd]) pt.2.2)
    (fun pt => filter_label_concatMapL_nil (fun nd => [nodeEdgeLine nd])
      (fun _nd => rfl) pt.2.2) pm]
  rfl

end EmitterLemmas

section ClaimsEmitter

set_option maxRecDepth 80000 in
/-- **C4** (counterexample): both conjuncts of the claim fail at concrete
inputs.  First, the emitted graph text is *not* a function of the resolved
tree alone — the generated notice embeds `datetime.now()`, so the same
resolved tree emitted at two different timestamps yields different text.
Second, the package clusters do *not* appear in sorted-by-package-name
order: for a concrete tree whose root package `pb` includes a file from
package `pa`, the emitted cluster label lines are `pb` then `pa`, which
differs from the sorted order `pa` then `pb`. -/
theorem c4_counterexample_timestamp_and_unsorted_clusters :
    toDot sampleRoot "2026-10-12 00:00:00" "cmd"
      ≠ toDot sampleRoot "2026-10-12 00:00:01" "cmd"
    ∧ ((toDotLines sampleRootPb "S" "C").toOption.getD []).filter isLabelLine
      = [labelLineOf "pb", labelLineOf "pa"]
    ∧ [labelLineOf "pb", labelLineOf "pa"] ≠ [labelLineOf "pa", labelLineOf "pb"] :=
  ⟨fun h => absurd (congrArg exOk h) (by decide), by decide, by decide⟩

/-- **C4** (amended): the emission is a deterministic function of the
resolved tree, the timestamp and the command line; the package clusters
appear in package-map iteration order (modelled as first-encounter order),
not sorted by package name: the label lines of the output are exactly the
package-map keys in order. -/
theorem c4_cluster_labels_in_package_map_order (root : LaunchFile)
    (stamp command : String) (pm : List (String × (List LaunchFile × List NodeT)))
    (lines : List String)
    (hpm : getPackageMap root = .ok pm)
    (hlines : toDotLines root stamp command = .ok lines) :
    lines.filter isLabelLine = pm.map (fun p => labelLineOf p.1) := by
  simp only [toDotLines, hpm, Except.ok.injEq] at hlines
  subst hlines
  rw [List.filter_append, List.filter_append, List.filter_append, List.filter_append]
  rw [filter_label_header, filter_label_subgraphSection, filter_label_launchEdges,
    filter_label_nodeEdges]
  rw [show (["\x7d"] : List String).filter isLabelLine = [] from rfl]
  simp

set_option maxRecDepth 40000 in
/-- Witness for C4 at the one-file tree `sampleRoot`. -/
theorem c4_cluster_labels_in_package_map_order_witness :
    getPackageMap sampleRoot = .ok [("p1", ([sampleRoot], []))]
    ∧ toDotLines sampleRoot "S" "C" = .ok sampleRootLines
    ∧ sampleRootLines.filter isLabelLine = [labelLineOf "p1"] :=
  ⟨rfl, rfl,
   (c4_cluster_labels_in_package_map_order sampleRoot "S" "C"
      [("p1", ([sampleRoot], []))] sampleRootLines rfl rfl).trans rfl⟩

set_option maxRecDepth 80000 in
/-- **C5** (counterexample): the emitted visual node for a launch file does
*not* use the identifier `file_<cleanname>`: at a concrete one-file tree
with one process node, the output contains the declarations
`"launch_r" [...]` and `"node_cam" [...]`, and the string `file_` occurs
nowhere in the output. -/
theorem c5_counterexample_no_file_prefix :
    containsSub "file_".data
        (exOk (toDot (.mk "/a/p1/launch/r.launch" false [] [] []
          [⟨"/a/p1/launch/r.launch", "p2", "drv", "cam", false⟩]) "S" "C")).data = false
    ∧ containsSub "        \"launch_r\" [".data
        (exOk (toDot (.mk "/a/p1/launch/r.launch" false [] [] []
          [⟨"/a/p1/launch/r.launch", "p2", "drv", "cam", false⟩]) "S" "C")).data = true
    ∧ containsSub "        \"node_cam\" [".data
        (exOk (toDot (.mk "/a/p1/launch/r.launch" false [] [] []
          [⟨"/a/p1/launch/r.launch", "p2", "drv", "cam", false⟩]) "S" "C")).data = true := by
  refine ⟨?_, ?_, ?_⟩ <;> decide

/-- **C5** (amended): in the emitted cluster for a package, every visual
node for a launch file is declared with the identifier
`launch_<cleanname>` and every visual node for a process entry with the
identifier `node_<name>`; lines of the two kinds never coincide, and no
`launch_`-prefixed identifier equals a `node_`-prefixed identifier, so the
two entity kinds cannot collide. -/
theorem c5_identifier_namespacing (i : Nat) (pkg : String)
    (lfs : List LaunchFile) (nds : List NodeT) :
    (∀ lf ∈ lfs, launchFileNodeLine lf ∈ createPackageSubgraph i pkg lfs nds)
    ∧ (∀ nd ∈ nds, nodeNodeLine nd ∈ createPackageSubgraph i pkg lfs nds)
    ∧ (∀ (lf : LaunchFile) (nd : NodeT), launchFileNodeLine lf ≠ nodeNodeLine nd)
    ∧ (∀ a b : String, "launch_" ++ a ≠ "node_" ++ b) := by
  refine ⟨?_, ?_, ?_, ?_⟩
  · intro lf hlf
    have hmem : launchFileNodeLine lf ∈ lfs.map launchFileNodeLine :=
      List.mem_map_of_mem _ hlf
    have hlen : lfs.length > 0 :=
      List.length_pos.mpr (List.ne_nil_of_mem hlf)
    unfold createPackageSubgraph
    rw [if_pos hlen]
    exact List.mem_append_left _ (List.mem_append_left _
      (List.mem_append_right _ (List.mem_append_right _ hmem)))
  · intro nd hnd
    have hmem : nodeNodeLine nd ∈ nds.map nodeNodeLine :=
      List.mem_map_of_mem _ hnd
    have hlen : nds.length > 0 :=
      List.length_pos.mpr (List.ne_nil_of_mem hnd)
    unfold createPackageSubgraph
    rw [if_pos hlen]
    exact List.mem_append_left _ (List.mem_append_right _
      (List.mem_append_right _ hmem))
  · intro lf nd h
    have h9l : (launchFileNodeLine lf).data.get? 9 = some 'l' := rfl
    have h9n : (nodeNodeLine nd).data.get? 9 = some 'n' := rfl
    rw [h, h9n] at h9l
    simp at h9l
  · intro a b h
    have h0a : ("launch_" ++ a).data.get? 0 = some 'l' := rfl
    have h0b : ("node_" ++ b).data.get? 0 = some 'n' := rfl
    rw [h, h0b] at h0a
    simp at h0a

/-- Witness for C5 at a concrete one-file, one-node cluster. -/
theorem c5_identifier_namespacing_witness :
    launchFileNodeLine sampleRoot
      ∈ createPackageSubgraph 0 "p1" [sampleRoot]
          [⟨"/a/p1/launch/r.launch", "p2", "drv", "cam", false⟩]
    ∧ launchFileNodeLine sampleRoot
      ≠ nodeNodeLine ⟨"/a/p1/launch/r.launch", "p2", "drv", "cam", false⟩ :=
  ⟨(c5_identifier_namespacing 0 "p1" [sampleRoot]
      [⟨"/a/p1/launch/r.launch", "p2", "drv", "cam", false⟩]).1
      sampleRoot (List.Mem.head _),
   (c5_identifier_namespacing 0 "p1" [sampleRoot]
      [⟨"/a/p1/launch/r.launch", "p2", "drv", "cam", false⟩]).2.2.1
      sampleRoot ⟨"/a/p1/launch/r.launch", "p2", "drv", "cam", false⟩⟩

end ClaimsEmitter


section ResolveReplaceLemmas

theorem takeWhile_append_of_all {α : Type} (p : α → Bool) (x y : List α)
    (h : ∀ c ∈ x, p c = true) : (x ++ y).takeWhile p = x ++ y.takeWhile p := by
  induction x with
  | nil => simp
  | cons a l ih =>
    rw [List.cons_append, List.takeWhile_cons_of_pos (h a (List.mem_cons_self a l)),
      ih (fun c hc => h c (List.mem_cons_of_mem a hc)), List.cons_append]

theorem dropWhile_append_of_all {α : Type} (p : α → Bool) (x y : List α)
    (h : ∀ c ∈ x, p c = true) : (x ++ y).dropWhile p = y.dropWhile p := by
  induction x with
  | nil => simp
  | cons a l ih =>
    rw [List.cons_append, List.dropWhile_cons_of_pos (h a (List.mem_cons_self a l))]
    exact ih (fun c hc => h c (List.mem_cons_of_mem a hc))

theorem startsWithL_append_self (x r : List Char) : startsWithL x (x ++ r) = true := by
  induction x with
  | nil => rfl
  | cons a l ih => simp [startsWithL, ih]

theorem pyReplaceF_nil (old new : List Char) (f : Nat) : pyReplaceF old new f [] = [] := by
  cases f <;> rfl

theorem pyReplaceF_head_match (o0 : Char) (ot new r : List Char) (f : Nat) :
    pyReplaceF (o0 :: ot) new (f + 1) ((o0 :: ot) ++ r)
      = new ++ pyReplaceF (o0 :: ot) new f r := by
  rw [show (o0 :: ot) ++ r = o0 :: (ot ++ r) from rfl]
  rw [pyReplaceF]
  rw [if_pos ⟨List.cons_ne_nil o0 ot,
    show startsWithL (o0 :: ot) (o0 :: (ot ++ r)) = true from startsWithL_append_self (o0 :: ot) r⟩]
  rw [show (o0 :: ot).length - 1 = ot.length from by simp, List.drop_left]

theorem pyReplaceF_head_nomatch (old new : List Char) (c : Char) (cs : List Char) (f : Nat)
    (hs : startsWithL old (c :: cs) = false) :
    pyReplaceF old new (f + 1) (c :: cs) = c :: pyReplaceF old new f cs := by
  have hneg : ¬(old ≠ [] ∧ startsWithL old (c :: cs) = true) := by simp [hs]
  rw [pyReplaceF, if_neg hneg]

theorem pyReplace_double (o0 : Char) (ot new : List Char) (hne : o0 ≠ ' ') :
    pyReplace (o0 :: ot) new ((o0 :: ot) ++ ' ' :: (o0 :: ot)) = new ++ ' ' :: new := by
  unfold pyReplace
  have hlen : ((o0 :: ot) ++ ' ' :: (o0 :: ot)).length = (2 * ot.length + 2) + 1 := by
    simp [List.length_append]
    omega
  rw [hlen, pyReplaceF_head_match]
  have hsw : startsWithL (o0 :: ot) (' ' :: (o0 :: ot)) = false := by
    simp [startsWithL, beq_eq_false_iff_ne.mpr hne]
  rw [show (2 * ot.length + 2) = (2 * ot.length + 1) + 1 from rfl,
    pyReplaceF_head_nomatch _ _ _ _ _ hsw]
  have h5 := pyReplaceF_head_match o0 ot new [] (2 * ot.length)
  rw [List.append_nil] at h5
  rw [show (2 * ot.length + 1) = (2 * ot.length) + 1 from rfl, h5, pyReplaceF_nil]
  simp

theorem searchSub_none_of_no_dollar (s : List Char) (h : ∀ c ∈ s, ¬ c = '$') :
    searchSub s = none := by
  induction s with
  | nil => rfl
  | cons c cs ih =>
    rw [searchSub]
    have hm : matchAt (c :: cs) = none := by
      cases cs with
      | nil => rfl
      | cons c2 cs2 =>
        rw [matchAt, if_neg (h c (List.mem_cons_self c _))]
    rw [hm]
    exact ih (fun y hy => h y (List.mem_cons_of_mem c hy))

theorem matchAfterParen_anon (x rest : List Char) (hx : x ≠ [])
    (hall : ∀ c ∈ x, isArgChar c = true) :
    matchAfterParen ('a' :: 'n' :: 'o' :: 'n' :: ' ' :: (x ++ ')' :: rest))
      = some ('$' :: '(' :: (['a', 'n', 'o', 'n'] ++ ' ' :: x ++ [')']),
          ['a', 'n', 'o', 'n'], x) := by
  have ha : (x ++ ')' :: rest).takeWhile isArgChar = x := by
    rw [takeWhile_append_of_all isArgChar x (')' :: rest) hall]
    simp [List.takeWhile_cons, isArgChar]
  have hd : (x ++ ')' :: rest).dropWhile isArgChar = ')' :: rest := by
    rw [dropWhile_append_of_all isArgChar x (')' :: rest) hall]
    simp [List.dropWhile_cons, isArgChar]
  rw [matchAfterParen]
  rw [show (('a' :: 'n' :: 'o' :: 'n' :: ' ' :: (x ++ ')' :: rest)).dropWhile isKwChar)
      = ' ' :: (x ++ ')' :: rest) from rfl]
  dsimp only
  rw [show (('a' :: 'n' :: 'o' :: 'n' :: ' ' :: (x ++ ')' :: rest)).takeWhile isKwChar)
      = ['a', 'n', 'o', 'n'] from rfl]
  rw [ha, hd]
  simp [hx]

theorem searchSub_anon_head (x rest : List Char) (hx : x ≠ [])
    (hall : ∀ c ∈ x, isArgChar c = true) :
    searchSub ('$' :: '(' :: 'a' :: 'n' :: 'o' :: 'n' :: ' ' :: (x ++ ')' :: rest))
      = some ('$' :: '(' :: (['a', 'n', 'o', 'n'] ++ ' ' :: x ++ [')']),
          ['a', 'n', 'o', 'n'], x) := by
  rw [searchSub]
  rw [show matchAt ('$' :: '(' :: 'a' :: 'n' :: 'o' :: 'n' :: ' ' :: (x ++ ')' :: rest))
      = matchAfterParen ('a' :: 'n' :: 'o' :: 'n' :: ' ' :: (x ++ ')' :: rest)) from rfl]
  rw [matchAfterParen_anon x rest hx hall]

/-- **C10** (confirmed): one resolution step substitutes every identical
occurrence of the matched expression text with a single handler
invocation's result: for every valid name `x`, resolving a text holding
two occurrences of `$(anon x)` yields both occurrences replaced by the
*same* token `x-<n>`, drawn from a single random draw (exactly one element
of the random stream is consumed). -/
theorem c10_anon_double_occurrence_same_token (rc : RCtx) (args : List (String × String))
    (x : List Char) (r : List Nat) (n : Nat) (fuel : Nat)
    (hx : x ≠ []) (hall : ∀ c ∈ x, isArgChar c = true)
    (hn : ∀ c ∈ (Nat.repr n).data, ¬ c = '$') :
    resolveTextL rc args (fuel + 1) (n :: r)
        (('$' :: '(' :: (['a', 'n', 'o', 'n'] ++ ' ' :: x ++ [')'])) ++ ' ' ::
          ('$' :: '(' :: (['a', 'n', 'o', 'n'] ++ ' ' :: x ++ [')'])))
      = (.ok ((x ++ '-' :: (Nat.repr n).data) ++ ' ' ::
          (x ++ '-' :: (Nat.repr n).data)), r) := by
  have hxd : ∀ c ∈ x, ¬ c = '$' := by
    intro c hc heq
    subst heq
    have := hall '$' hc
    simp [isArgChar] at this
  have htok : ∀ c ∈ (x ++ '-' :: (Nat.repr n).data), ¬ c = '$' := by
    intro c hc
    rcases List.mem_append.mp hc with h | h
    · exact hxd c h
    · rcases List.mem_cons.mp h with rfl | h2
      · simp
      · exact hn c h2
  have hchars : ∀ c ∈ ((x ++ '-' :: (Nat.repr n).data) ++ ' ' ::
      (x ++ '-' :: (Nat.repr n).data)), ¬ c = '$' := by
    intro c hc
    rcases List.mem_append.mp hc with h | h
    · exact htok c h
    · rcases List.mem_cons.mp h with rfl | h2
      · simp
      · exact htok c h2
  have htext : ('$' :: '(' :: (['a', 'n', 'o', 'n'] ++ ' ' :: x ++ [')'])) ++ ' ' ::
        ('$' :: '(' :: (['a', 'n', 'o', 'n'] ++ ' ' :: x ++ [')']))
      = '$' :: '(' :: 'a' :: 'n' :: 'o' :: 'n' :: ' ' ::
        (x ++ ')' :: (' ' :: ('$' :: '(' :: (['a', 'n', 'o', 'n'] ++ ' ' :: x ++ [')'])))) := by
    simp
  have hsearch := searchSub_anon_head x
    (' ' :: ('$' :: '(' :: (['a', 'n', 'o', 'n'] ++ ' ' :: x ++ [')']))) hx hall
  rw [resolveTextL, htext, hsearch]
  dsimp only
  rw [show applySub rc args (n :: r) ['a', 'n', 'o', 'n'] x
      = (.ok (x ++ '-' :: (Nat.repr n).data), r) from rfl]
  dsimp only
  rw [← htext]
  rw [pyReplace_double '$' ('(' :: (['a', 'n', 'o', 'n'] ++ ' ' :: x ++ [')']))
    (x ++ '-' :: (Nat.repr n).data) (by decide)]
  rw [resolveTextL, searchSub_none_of_no_dollar _ hchars]

/-- Witness for C10 at the name `c`, random draw `5`. -/
theorem c10_anon_double_occurrence_same_token_witness :
    resolveTextL ⟨[], []⟩ [] 1 [5]
        (('$' :: '(' :: (['a', 'n', 'o', 'n'] ++ ' ' :: ['c'] ++ [')'])) ++ ' ' ::
          ('$' :: '(' :: (['a', 'n', 'o', 'n'] ++ ' ' :: ['c'] ++ [')'])))
      = (.ok ((['c'] ++ '-' :: (Nat.repr 5).data) ++ ' ' ::
          (['c'] ++ '-' :: (Nat.repr 5).data)), []) :=
  c10_anon_double_occurrence_same_token ⟨[], []⟩ [] ['c'] [] 5 0
    (by decide) (by decide) (by decide)

end ResolveReplaceLemmas

end Ros
